import Mathlib

/-!
Verification of the view-state store, gesture handler and render pipeline of
the `svelte-interactive-timeline` repository, shallowly embedded in Lean.

Numbers are modelled as rationals.  The store code is
`src/lib/core/store.svelte.ts`; the gesture handler is the pointer code of
`TimelineCanvas.svelte`; the renderer is `src/lib/rendering/renderer.ts`
together with the config-variant renderer shipped in the package.  The
coordinate-math module `src/lib/core/utils.ts` is absent from the snapshot
(only its `.d.ts` declarations and its callers are present), so `clamp`,
`mapRange`, `zoomAtPoint` and `panView` are modelled from the spec, as
marked in their doc comments.
-/

namespace Timeline

/-- The `DragTarget` union of `types.ts` minus its `null` case (the `null`
case is represented by `Option.none` at use sites). -/
inductive DragTarget where
  | playhead
  | pan
  | zoomRegion
deriving DecidableEq, Repr

/-- The `TimelineState` interface of `types.ts`. -/
structure TimelineState where
  dataStart : ℚ
  dataEnd : ℚ
  viewStart : ℚ
  viewEnd : ℚ
  currentTime : ℚ
  leftX : ℚ
  rightX : ℚ
  hoveredTime : Option ℚ
  isDragging : Option DragTarget
  zoomSelectionStart : Option ℚ
  zoomSelectionEnd : Option ℚ
deriving DecidableEq, Repr

/-- The `initialState` constant of `store.svelte.ts` (everything zero or null). -/
def initialState : TimelineState :=
  { dataStart := 0
    dataEnd := 0
    viewStart := 0
    viewEnd := 0
    currentTime := 0
    leftX := 0
    rightX := 0
    hoveredTime := none
    isDragging := none
    zoomSelectionStart := none
    zoomSelectionEnd := none }

/-- Modelled from the spec: `clamp(value, min, max)` of the missing
`src/lib/core/utils.ts` ("standard; `lo <= hi` assumed by callers", §4.1),
taken as the standard idiom `Math.min(Math.max(value, min), max)`. -/
def clamp (value lo hi : ℚ) : ℚ := min (max value lo) hi

/-- Modelled from the spec: `mapRange(value, inStart, inEnd, outStart, outEnd)`
of the missing `src/lib/core/utils.ts`: the affine map sending
`[inStart, inEnd]` to `[outStart, outEnd]` (§4.1).  With a zero-width input
range the rational division is zero, so the result is `outStart`, one of the
fallbacks the spec sanctions for that open case. -/
def mapRange (value inStart inEnd outStart outEnd : ℚ) : ℚ :=
  outStart + (value - inStart) / (inEnd - inStart) * (outEnd - outStart)

/-- The `{ viewStart, viewEnd }` result record of `zoomAtPoint` / `panView`. -/
structure ViewRange where
  viewStart : ℚ
  viewEnd : ℚ
deriving DecidableEq, Repr

/-- Modelled from the spec: `zoomAtPoint(viewStart, viewEnd, factor, centerTime,
dataStart, dataEnd, minDuration)` of the missing `src/lib/core/utils.ts` (§4.1):
new width `max(minDuration, (viewEnd-viewStart)*factor)`; the new window is
positioned so that `centerTime` keeps its fractional position; the result is
clamped into `[dataStart, dataEnd]` by translation if it overflows one edge.
When the new width reaches the whole data duration a translation cannot keep the
window inside the data range, so the window becomes the full data range, which
agrees with the spec's §8 scenario (`zoom(2, 60)` from `[30, 90]` on data
`[0, 120]` yields `[0, 120]`). -/
def zoomAtPoint (viewStart viewEnd factor centerTime dataStart dataEnd minDuration : ℚ) :
    ViewRange :=
  let newDuration := max minDuration ((viewEnd - viewStart) * factor)
  let frac := (centerTime - viewStart) / (viewEnd - viewStart)
  let ns := centerTime - frac * newDuration
  let ne := ns + newDuration
  if dataEnd - dataStart ≤ newDuration then ⟨dataStart, dataEnd⟩
  else if ns < dataStart then ⟨dataStart, dataStart + newDuration⟩
  else if dataEnd < ne then ⟨dataEnd - newDuration, dataEnd⟩
  else ⟨ns, ne⟩

/-- Modelled from the spec: `panView(viewStart, viewEnd, deltaTime, dataStart,
dataEnd)` of the missing `src/lib/core/utils.ts` (§4.1): translates the window
by `deltaTime`, clamped by translation so the window never exits
`[dataStart, dataEnd]`; the window width is invariant. -/
def panView (viewStart viewEnd deltaTime dataStart dataEnd : ℚ) : ViewRange :=
  let ns := viewStart + deltaTime
  let ne := viewEnd + deltaTime
  if ns < dataStart then ⟨dataStart, dataStart + (viewEnd - viewStart)⟩
  else if dataEnd < ne then ⟨dataEnd - (viewEnd - viewStart), dataEnd⟩
  else ⟨ns, ne⟩

/-- The store's `initialize(endTime, startTime = 0)` (`store.svelte.ts`): it
unconditionally sets data range, view window and playhead — the source contains
no validation of `endTime >= startTime` and no failure path. -/
def initTimeline (s : TimelineState) (endTime startTime : ℚ) : TimelineState :=
  { s with
    dataStart := startTime
    dataEnd := endTime
    viewStart := startTime
    viewEnd := endTime
    currentTime := startTime }

/-- The store's `reset()` (`store.svelte.ts`): back to the initial empty state,
leaving the pixel bounds `leftX`/`rightX` untouched. -/
def reset (s : TimelineState) : TimelineState :=
  { s with
    dataStart := 0
    dataEnd := 0
    viewStart := 0
    viewEnd := 0
    currentTime := 0
    hoveredTime := none
    isDragging := none
    zoomSelectionStart := none
    zoomSelectionEnd := none }

/-- The store's `setCurrentTime(time)` (`store.svelte.ts`). -/
def setCurrentTime (s : TimelineState) (time : ℚ) : TimelineState :=
  { s with currentTime := clamp time s.dataStart s.dataEnd }

/-- The store's `setView(start, end)` (`store.svelte.ts`): both bounds clamped
independently into the data range. -/
def setView (s : TimelineState) (start stop : ℚ) : TimelineState :=
  { s with
    viewStart := clamp start s.dataStart s.dataEnd
    viewEnd := clamp stop s.dataStart s.dataEnd }

/-- The store's `zoom(factor, centerTime?)` (`store.svelte.ts`): default center
is the view midpoint; delegates to `zoomAtPoint`. -/
def zoom (minZoomDuration : ℚ) (s : TimelineState) (factor : ℚ) (centerTime : Option ℚ) :
    TimelineState :=
  let center := centerTime.getD ((s.viewStart + s.viewEnd) / 2)
  let result :=
    zoomAtPoint s.viewStart s.viewEnd factor center s.dataStart s.dataEnd minZoomDuration
  { s with viewStart := result.viewStart, viewEnd := result.viewEnd }

/-- The store's `zoomToFit()` (`store.svelte.ts`). -/
def zoomToFit (s : TimelineState) : TimelineState :=
  { s with viewStart := s.dataStart, viewEnd := s.dataEnd }

/-- The store's `pan(deltaTime)` (`store.svelte.ts`): delegates to `panView`. -/
def pan (s : TimelineState) (deltaTime : ℚ) : TimelineState :=
  let result := panView s.viewStart s.viewEnd deltaTime s.dataStart s.dataEnd
  { s with viewStart := result.viewStart, viewEnd := result.viewEnd }

/-- The store's `setHover(time)` (`store.svelte.ts`). -/
def setHover (s : TimelineState) (time : Option ℚ) : TimelineState :=
  { s with hoveredTime := time }

/-- The store's `setDragging(target)` (`store.svelte.ts`). -/
def setDragging (s : TimelineState) (target : Option DragTarget) : TimelineState :=
  { s with isDragging := target }

/-- The store's `setZoomSelection(start, end)` (`store.svelte.ts`). -/
def setZoomSelection (s : TimelineState) (start stop : Option ℚ) : TimelineState :=
  { s with zoomSelectionStart := start, zoomSelectionEnd := stop }

/-- The store's `applyZoomSelection()` (`store.svelte.ts`): with both selection
bounds non-null and `end - start > minZoomSelectionThreshold` after order
normalization, the view window becomes the clamped selection; the selection and
the drag target are always cleared. -/
def applyZoomSelection (minZoomSelectionThreshold : ℚ) (s : TimelineState) : TimelineState :=
  let s1 :=
    match s.zoomSelectionStart, s.zoomSelectionEnd with
    | some zs, some ze =>
      let lo := min zs ze
      let hi := max zs ze
      if minZoomSelectionThreshold < hi - lo then
        { s with
          viewStart := clamp lo s.dataStart s.dataEnd
          viewEnd := clamp hi s.dataStart s.dataEnd }
      else s
    | _, _ => s
  { s1 with zoomSelectionStart := none, zoomSelectionEnd := none, isDragging := none }

/-- The store's `updateXPositions(newLeftX, newRightX)` (`store.svelte.ts`). -/
def updateXPositions (s : TimelineState) (newLeftX newRightX : ℚ) : TimelineState :=
  { s with leftX := newLeftX, rightX := newRightX }

/-- One public mutating operation of the store, with its arguments. -/
inductive Op where
  | initTimeline (endTime startTime : ℚ)
  | reset
  | setCurrentTime (time : ℚ)
  | setView (start stop : ℚ)
  | zoom (factor : ℚ) (centerTime : Option ℚ)
  | zoomToFit
  | pan (deltaTime : ℚ)
  | setHover (time : Option ℚ)
  | setDragging (target : Option DragTarget)
  | setZoomSelection (start stop : Option ℚ)
  | applyZoomSelection
  | updateXPositions (newLeftX newRightX : ℚ)
deriving DecidableEq, Repr

/-- Interpretation of one store operation as a state transformer.  The store
configuration `minZoomDuration` / `minZoomSelectionThreshold` (defaults 1 and
1/2 in `createTimelineStore`) is passed explicitly. -/
def applyOp (minZoomDuration minZoomSelectionThreshold : ℚ) (op : Op) (s : TimelineState) :
    TimelineState :=
  match op with
  | .initTimeline endTime startTime => initTimeline s endTime startTime
  | .reset => reset s
  | .setCurrentTime time => setCurrentTime s time
  | .setView start stop => setView s start stop
  | .zoom factor centerTime => zoom minZoomDuration s factor centerTime
  | .zoomToFit => zoomToFit s
  | .pan deltaTime => pan s deltaTime
  | .setHover time => setHover s time
  | .setDragging target => setDragging s target
  | .setZoomSelection start stop => setZoomSelection s start stop
  | .applyZoomSelection => applyZoomSelection minZoomSelectionThreshold s
  | .updateXPositions newLeftX newRightX => updateXPositions s newLeftX newRightX

/-- Run a sequence of store operations from the initial empty state. -/
def runOps (minZoomDuration minZoomSelectionThreshold : ℚ) (ops : List Op) : TimelineState :=
  ops.foldl (fun s op => applyOp minZoomDuration minZoomSelectionThreshold op s) initialState

/-- Argument discipline the spec places on callers: `initialize` is called with
`end >= start` and `setView` with `start <= end`; every other operation is
unrestricted. -/
def opOk : Op → Bool
  | .initTimeline endTime startTime => startTime ≤ endTime
  | .setView start stop => start ≤ stop
  | _ => true

/-- The view/data containment invariant (the non-strict part of the spec's §3
invariant). -/
def Inv (s : TimelineState) : Prop :=
  s.dataStart ≤ s.viewStart ∧ s.viewStart ≤ s.viewEnd ∧ s.viewEnd ≤ s.dataEnd

instance (s : TimelineState) : Decidable (Inv s) := by
  unfold Inv
  infer_instance

/-- The subscriber-facing part of a store instance (`store.svelte.ts`):
the state fields, the `subscribers` set (here: the list of subscriber
identities in insertion order, as a JS `Set` iterates) and the
`notifyScheduled` flag guarding the queued microtask. -/
structure StoreCtx where
  st : TimelineState
  subscribers : List ℕ
  notifyScheduled : Bool
deriving DecidableEq, Repr

/-- `notifySubscribers()` of `store.svelte.ts`: if a notification microtask is
already scheduled, do nothing; otherwise mark one as scheduled.  The queued
microtask itself is `flushMicrotask`. -/
def notifySubscribers (c : StoreCtx) : StoreCtx :=
  if c.notifyScheduled then c else { c with notifyScheduled := true }

/-- `withNotify(fn)` of `store.svelte.ts`: run the mutation, then schedule the
debounced notification. -/
def withNotify (f : TimelineState → TimelineState) (c : StoreCtx) : StoreCtx :=
  notifySubscribers { c with st := f c.st }

/-- A synchronous burst: a list of store operations executed back to back
within one cooperative-scheduling tick, each through `withNotify`. -/
def runBurst (minZoomDuration minZoomSelectionThreshold : ℚ) (ops : List Op) (c : StoreCtx) :
    StoreCtx :=
  ops.foldl
    (fun c op => withNotify (applyOp minZoomDuration minZoomSelectionThreshold op) c) c

/-- The microtask queued by `notifySubscribers` (`store.svelte.ts`): at the end
of the tick, if one was scheduled, clear the flag, take the state snapshot and
call every subscriber with it.  Returns the new context together with the list
of delivered `(subscriber, snapshot)` notification events. -/
def flushMicrotask (c : StoreCtx) : StoreCtx × List (ℕ × TimelineState) :=
  if c.notifyScheduled then
    ({ c with notifyScheduled := false }, c.subscribers.map (fun sid => (sid, c.st)))
  else (c, [])

/-- `subscribe(subscriber)` of `store.svelte.ts`: add the subscriber to the set
(a JS `Set` ignores a duplicate add), then immediately and synchronously call
it with the current state.  Returns the new context together with the list of
calls made during `subscribe` itself. -/
def subscribe (c : StoreCtx) (sid : ℕ) : StoreCtx × List (ℕ × TimelineState) :=
  ({ c with
      subscribers :=
        if sid ∈ c.subscribers then c.subscribers else c.subscribers ++ [sid] },
   [(sid, c.st)])

/-- The unsubscribe handle returned by `subscribe` (`store.svelte.ts`):
`subscribers.delete(subscriber)`. -/
def unsubscribe (c : StoreCtx) (sid : ℕ) : StoreCtx :=
  { c with subscribers := c.subscribers.filter (fun j => j ≠ sid) }

/-- A render layer as the pipeline sees it for ordering and lookup: its unique
`name` and its `visible` flag (the `render` closure plays no role in layer
management). -/
structure RenderLayer where
  name : String
  visible : Bool
deriving DecidableEq, Repr

/-- `addLayer(layer)` of `src/lib/rendering/renderer.ts`: find the index of the
layer named `playhead` with `findIndex` and `splice` the new layer in at that
index; if there is none, push at the end. -/
def addLayer (layers : List RenderLayer) (l : RenderLayer) : List RenderLayer :=
  let playheadIndex := layers.findIdx (fun x => x.name == "playhead")
  if playheadIndex < layers.length then layers.insertIdx playheadIndex l
  else layers ++ [l]

/-- `addLayer(layer, index?)` of the config-variant renderer shipped in the
package: with an explicit index, `splice` there; with no index, push at the
end of the layer list. -/
def addLayerCfg (layers : List RenderLayer) (l : RenderLayer) (index : Option ℕ) :
    List RenderLayer :=
  match index with
  | some i => layers.insertIdx i l
  | none => layers ++ [l]

/-- The default layer stack of the config-variant renderer:
Background, Playhead, ZoomSelection, Hover. -/
def defaultCfgLayers : List RenderLayer :=
  [⟨"background", true⟩, ⟨"playhead", true⟩, ⟨"zoom-selection", true⟩, ⟨"hover", true⟩]

/-- The `DRAG_THRESHOLD` constant of `TimelineCanvas.svelte` (pixels,
distinguishes click from drag). -/
def dragThreshold : ℚ := 5

/-- The renderer's `pixelToTime(x)` (`renderer.ts`): the affine map from
`[0, width]` to the renderer snapshot's `[viewStart, viewEnd]`. -/
def rendererPixelToTime (r : TimelineState) (width x : ℚ) : ℚ :=
  mapRange x 0 width r.viewStart r.viewEnd

/-- The inputs of the pointer-up handler of `TimelineCanvas.svelte`: the store
state, the renderer's state snapshot and logical width (used by
`pixelToTime`), and the `zoomStartX` recorded at pointer-down. -/
structure GestureCtx where
  st : TimelineState
  rendererState : TimelineState
  width : ℚ
  zoomStartX : ℚ

/-- `onPointerUp(e)` of `TimelineCanvas.svelte`, restricted to its store
mutations, as a function of the release x position: while dragging a
zoom-region, a travel below `DRAG_THRESHOLD` is a click (seek to the release
time, discard the selection, stop dragging); otherwise the selection is
applied; while dragging anything else the drag target is cleared. -/
def onPointerUp (minZoomSelectionThreshold : ℚ) (g : GestureCtx) (x : ℚ) : TimelineState :=
  match g.st.isDragging with
  | none => g.st
  | some DragTarget.zoomRegion =>
    if |x - g.zoomStartX| < dragThreshold then
      let time := rendererPixelToTime g.rendererState g.width x
      setDragging (setZoomSelection (setCurrentTime g.st time) none none) none
    else
      applyZoomSelection minZoomSelectionThreshold g.st
  | some _ => setDragging g.st none

/-- A concrete store state used by witnesses: data range `[0, 100]`, view
window `[20, 40]`, a zoom selection drawn from 40 back to 10, and an active
zoom-region drag. -/
def sampleState : TimelineState :=
  { dataStart := 0
    dataEnd := 100
    viewStart := 20
    viewEnd := 40
    currentTime := 0
    leftX := 0
    rightX := 0
    hoveredTime := none
    isDragging := some DragTarget.zoomRegion
    zoomSelectionStart := some 40
    zoomSelectionEnd := some 10 }

/-- A concrete gesture context used by witnesses: store and renderer both at
`sampleState`, canvas width 100, zoom drag started at pixel 10. -/
def sampleGesture : GestureCtx :=
  { st := sampleState
    rendererState := sampleState
    width := 100
    zoomStartX := 10 }

theorem clamp_lower {lo hi : ℚ} (v : ℚ) (h : lo ≤ hi) : lo ≤ clamp v lo hi :=
  le_min (le_max_right v lo) h

theorem clamp_upper (v lo hi : ℚ) : clamp v lo hi ≤ hi :=
  min_le_right _ _

theorem clamp_mono {a b : ℚ} (lo hi : ℚ) (h : a ≤ b) : clamp a lo hi ≤ clamp b lo hi :=
  min_le_min (max_le_max h le_rfl) le_rfl

theorem clamp_point (v c : ℚ) : clamp v c c = c :=
  min_eq_right (le_max_right v c)

theorem inv_ds_le_de {s : TimelineState} (h : Inv s) : s.dataStart ≤ s.dataEnd :=
  le_trans h.1 (le_trans h.2.1 h.2.2)

theorem applyOp_inv {minZoomDuration minZoomSelectionThreshold : ℚ} {op : Op}
    {s : TimelineState} (hm : 0 ≤ minZoomDuration) (h : Inv s) (hop : opOk op = true) :
    Inv (applyOp minZoomDuration minZoomSelectionThreshold op s) := by
  obtain ⟨h1, h2, h3⟩ := h
  have hde : s.dataStart ≤ s.dataEnd := le_trans h1 (le_trans h2 h3)
  cases op with
  | initTimeline endTime startTime =>
    simp only [opOk, decide_eq_true_eq] at hop
    exact ⟨le_refl _, hop, le_refl _⟩
  | reset =>
    exact ⟨le_refl _, le_refl _, le_refl _⟩
  | setCurrentTime time =>
    exact ⟨h1, h2, h3⟩
  | setView start stop =>
    simp only [opOk, decide_eq_true_eq] at hop
    exact ⟨clamp_lower start hde, clamp_mono _ _ hop, clamp_upper stop _ _⟩
  | zoom factor centerTime =>
    simp only [applyOp, zoom, zoomAtPoint]
    have hnd : 0 ≤ max minZoomDuration ((s.viewEnd - s.viewStart) * factor) :=
      le_trans hm (le_max_left _ _)
    split_ifs with hb1 hb2 hb3 <;>
      refine ⟨?_, ?_, ?_⟩ <;> dsimp only <;> linarith
  | zoomToFit =>
    exact ⟨le_refl _, hde, le_refl _⟩
  | pan deltaTime =>
    simp only [applyOp, pan, panView]
    have hw : s.viewEnd - s.viewStart ≤ s.dataEnd - s.dataStart := by linarith
    have hw0 : 0 ≤ s.viewEnd - s.viewStart := by linarith
    split_ifs with hb1 hb2 <;>
      refine ⟨?_, ?_, ?_⟩ <;> dsimp only <;> linarith
  | setHover time => exact ⟨h1, h2, h3⟩
  | setDragging target => exact ⟨h1, h2, h3⟩
  | setZoomSelection start stop => exact ⟨h1, h2, h3⟩
  | applyZoomSelection =>
    simp only [applyOp, applyZoomSelection]
    cases hzs : s.zoomSelectionStart with
    | none => exact ⟨h1, h2, h3⟩
    | some zs =>
      cases hze : s.zoomSelectionEnd with
      | none => exact ⟨h1, h2, h3⟩
      | some ze =>
        simp only
        split_ifs with hth
        · exact ⟨clamp_lower _ hde, clamp_mono _ _ (min_le_max), clamp_upper _ _ _⟩
        · exact ⟨h1, h2, h3⟩
  | updateXPositions newLeftX newRightX => exact ⟨h1, h2, h3⟩

theorem foldl_inv {minZoomDuration minZoomSelectionThreshold : ℚ}
    (hm : 0 ≤ minZoomDuration) (ops : List Op) (s : TimelineState)
    (h : Inv s) (hok : ops.all opOk = true) :
    Inv (ops.foldl (fun s op => applyOp minZoomDuration minZoomSelectionThreshold op s) s) := by
  induction ops generalizing s with
  | nil => exact h
  | cons op rest ih =>
    simp only [List.all_cons, Bool.and_eq_true] at hok
    exact ih _ (applyOp_inv hm h hok.1) hok.2

/-- Claim C2 (amended): every state reachable from the empty state by store
operations satisfies the non-strict containment
`dataStart <= viewStart <= viewEnd <= dataEnd`, provided the configured
`minZoomDuration` is nonnegative, `initialize` is only called with
`end >= start` and `setView` only with `start <= end`.  The strict form of the
claim fails: the window may be degenerate (`viewStart == viewEnd`) even when
`dataEnd != dataStart`. -/
theorem view_invariant_preserved (minZoomDuration minZoomSelectionThreshold : ℚ)
    (hm : 0 ≤ minZoomDuration) (ops : List Op) (hok : ops.all opOk = true) :
    Inv (runOps minZoomDuration minZoomSelectionThreshold ops) :=
  foldl_inv hm ops initialState ⟨le_refl 0, le_refl 0, le_refl 0⟩ hok

/-- Witness for `view_invariant_preserved` at a concrete operation sequence
exercising `initialize`, `setView`, `pan`, `zoom`, `applyZoomSelection` and
`zoomToFit` with the default configuration. -/
theorem view_invariant_preserved_witness :
    (0:ℚ) ≤ 1
    ∧ ([Op.initTimeline 100 0, Op.setView 10 60, Op.pan 20,
        Op.zoom (1/2) (some 40), Op.applyZoomSelection,
        Op.zoomToFit] : List Op).all opOk = true
    ∧ Inv (runOps 1 (1/2)
        [Op.initTimeline 100 0, Op.setView 10 60, Op.pan 20,
         Op.zoom (1/2) (some 40), Op.applyZoomSelection, Op.zoomToFit]) :=
  ⟨by norm_num, by decide,
    view_invariant_preserved 1 (1/2) (by norm_num) _ (by decide)⟩

/-- Counterexample to claim C2 as stated: with data range `[0, 100]`,
`setView(5, 5)` yields a reachable state whose view window is degenerate
(`viewStart == viewEnd == 5`) although `dataEnd != dataStart`, and
`setView(50, 10)` even yields an inverted window (`viewStart > viewEnd`). -/
theorem view_invariant_counterexample :
    (runOps 1 (1/2) [Op.initTimeline 100 0, Op.setView 5 5]).dataStart = 0
    ∧ (runOps 1 (1/2) [Op.initTimeline 100 0, Op.setView 5 5]).dataEnd = 100
    ∧ (runOps 1 (1/2) [Op.initTimeline 100 0, Op.setView 5 5]).viewStart = 5
    ∧ (runOps 1 (1/2) [Op.initTimeline 100 0, Op.setView 5 5]).viewEnd = 5
    ∧ (runOps 1 (1/2) [Op.initTimeline 100 0, Op.setView 50 10]).viewStart = 50
    ∧ (runOps 1 (1/2) [Op.initTimeline 100 0, Op.setView 50 10]).viewEnd = 10 := by
  decide

/-- Claim C1: `initialize(-1, 0)` does not fail and does not swap or clamp: the
source's `initialize` has no validation and no failure path, so the store ends
up with the inverted data range `dataStart = 0 > dataEnd = -1`, the view window
and playhead set to that inverted range — contradicting the spec's requirement
to reject with `InvalidRange`. -/
theorem ctInv_applyOp {minZoomDuration minZoomSelectionThreshold : ℚ} {op : Op}
    {s : TimelineState}
    (h : s.dataEnd = s.dataStart → s.currentTime = s.dataStart) :
    (applyOp minZoomDuration minZoomSelectionThreshold op s).dataEnd
        = (applyOp minZoomDuration minZoomSelectionThreshold op s).dataStart
      → (applyOp minZoomDuration minZoomSelectionThreshold op s).currentTime
        = (applyOp minZoomDuration minZoomSelectionThreshold op s).dataStart := by
  cases op with
  | initTimeline endTime startTime => intro _; rfl
  | reset => intro _; rfl
  | setCurrentTime time =>
    intro hde
    simp only [applyOp, setCurrentTime] at hde ⊢
    rw [hde, clamp_point]
  | setView start stop => exact h
  | zoom factor centerTime =>
    simp only [applyOp, zoom]
    exact h
  | zoomToFit => exact h
  | pan deltaTime =>
    simp only [applyOp, pan]
    exact h
  | setHover time => exact h
  | setDragging target => exact h
  | setZoomSelection start stop => exact h
  | applyZoomSelection =>
    simp only [applyOp, applyZoomSelection]
    cases s.zoomSelectionStart with
    | none => exact h
    | some zs =>
      cases s.zoomSelectionEnd with
      | none => exact h
      | some ze =>
        simp only
        split_ifs <;> exact h
  | updateXPositions newLeftX newRightX => exact h

theorem ctInv_runOps (minZoomDuration minZoomSelectionThreshold : ℚ) (ops : List Op) :
    (runOps minZoomDuration minZoomSelectionThreshold ops).dataEnd
        = (runOps minZoomDuration minZoomSelectionThreshold ops).dataStart
      → (runOps minZoomDuration minZoomSelectionThreshold ops).currentTime
        = (runOps minZoomDuration minZoomSelectionThreshold ops).dataStart := by
  have aux : ∀ (l : List Op) (s : TimelineState),
      (s.dataEnd = s.dataStart → s.currentTime = s.dataStart) →
      ((l.foldl (fun s op => applyOp minZoomDuration minZoomSelectionThreshold op s) s).dataEnd
          = (l.foldl (fun s op => applyOp minZoomDuration minZoomSelectionThreshold op s) s).dataStart
        → (l.foldl (fun s op => applyOp minZoomDuration minZoomSelectionThreshold op s) s).currentTime
          = (l.foldl (fun s op => applyOp minZoomDuration minZoomSelectionThreshold op s) s).dataStart) := by
    intro l
    induction l with
    | nil => intro s h; exact h
    | cons op rest ih => intro s h; exact ih _ (ctInv_applyOp h)
  exact aux ops initialState (fun _ => rfl)

/-- Claim C3 (amended): `setCurrentTime(t)` always sets
`currentTime = clamp(t, dataStart, dataEnd)` and is idempotent when reapplied
with the same `t`; on any reachable state with `dataEnd == dataStart` it is a
no-op on the whole state.  On the inverted states reachable through
`initialize(end, start)` with `end < start` (where `dataEnd < dataStart`) it is
not a no-op: the clamp then forces `currentTime` to `dataEnd`. -/
theorem setCurrentTime_spec (minZoomDuration minZoomSelectionThreshold t : ℚ)
    (s : TimelineState) (ops : List Op)
    (hde : (runOps minZoomDuration minZoomSelectionThreshold ops).dataEnd
        = (runOps minZoomDuration minZoomSelectionThreshold ops).dataStart) :
    (setCurrentTime s t).currentTime = clamp t s.dataStart s.dataEnd
    ∧ setCurrentTime (setCurrentTime s t) t = setCurrentTime s t
    ∧ setCurrentTime (runOps minZoomDuration minZoomSelectionThreshold ops) t
        = runOps minZoomDuration minZoomSelectionThreshold ops := by
  refine ⟨rfl, rfl, ?_⟩
  have hct := ctInv_runOps minZoomDuration minZoomSelectionThreshold ops hde
  show ({ runOps minZoomDuration minZoomSelectionThreshold ops with
      currentTime := clamp t _ _ } : TimelineState) = _
  rw [hde, clamp_point, ← hct]

/-- Witness for `setCurrentTime_spec`: after `initialize(5, 5)` the data range
is the single point 5, and `setCurrentTime(3)` leaves the state unchanged. -/
theorem setCurrentTime_spec_witness :
    (runOps 1 (1/2) [Op.initTimeline 5 5]).dataEnd
        = (runOps 1 (1/2) [Op.initTimeline 5 5]).dataStart
    ∧ ((setCurrentTime initialState 3).currentTime = clamp 3 0 0
        ∧ setCurrentTime (setCurrentTime initialState 3) 3
            = setCurrentTime initialState 3
        ∧ setCurrentTime (runOps 1 (1/2) [Op.initTimeline 5 5]) 3
            = runOps 1 (1/2) [Op.initTimeline 5 5]) :=
  ⟨by decide, setCurrentTime_spec 1 (1/2) 3 initialState [Op.initTimeline 5 5] (by decide)⟩

/-- Counterexample to claim C3 as stated: `initialize(-1, 0)` reaches a state
with `dataEnd = -1 <= 0 = dataStart` ("uninitialized" in the claim's sense), yet
`setCurrentTime(5)` is not a no-op there — it moves `currentTime` from 0 to
`clamp(5, 0, -1) = -1`. -/
theorem setCurrentTime_inverted_counterexample :
    (runOps 1 (1/2) [Op.initTimeline (-1) 0]).dataEnd
      ≤ (runOps 1 (1/2) [Op.initTimeline (-1) 0]).dataStart
    ∧ (setCurrentTime (runOps 1 (1/2) [Op.initTimeline (-1) 0]) 5).currentTime = -1
    ∧ (runOps 1 (1/2) [Op.initTimeline (-1) 0]).currentTime = 0
    ∧ setCurrentTime (runOps 1 (1/2) [Op.initTimeline (-1) 0]) 5
        ≠ runOps 1 (1/2) [Op.initTimeline (-1) 0] := by
  decide

theorem initTimeline_inverted_range_accepted :
    (initTimeline initialState (-1) 0).dataStart = 0
    ∧ (initTimeline initialState (-1) 0).dataEnd = -1
    ∧ (initTimeline initialState (-1) 0).viewStart = 0
    ∧ (initTimeline initialState (-1) 0).viewEnd = -1
    ∧ (initTimeline initialState (-1) 0).currentTime = 0
    ∧ (initTimeline initialState (-1) 0).dataEnd
        < (initTimeline initialState (-1) 0).dataStart := by
  decide

/-- Claim C4: with both selection bounds set, `applyZoomSelection()` leaves the
view window unchanged when the selection span is at most
`minZoomSelectionThreshold`, and otherwise sets it to the order-normalized,
clamped selection; in every state it clears both selection bounds and the drag
target. -/
theorem applyZoomSelection_spec (threshold : ℚ) (s : TimelineState) (a b : ℚ)
    (ha : s.zoomSelectionStart = some a) (hb : s.zoomSelectionEnd = some b) :
    (|b - a| ≤ threshold →
      (applyZoomSelection threshold s).viewStart = s.viewStart
      ∧ (applyZoomSelection threshold s).viewEnd = s.viewEnd)
    ∧ (threshold < |b - a| →
      (applyZoomSelection threshold s).viewStart = clamp (min a b) s.dataStart s.dataEnd
      ∧ (applyZoomSelection threshold s).viewEnd = clamp (max a b) s.dataStart s.dataEnd)
    ∧ ∀ s2 : TimelineState,
      (applyZoomSelection threshold s2).zoomSelectionStart = none
      ∧ (applyZoomSelection threshold s2).zoomSelectionEnd = none
      ∧ (applyZoomSelection threshold s2).isDragging = none := by
  have habs : max a b - min a b = |b - a| := max_sub_min_eq_abs a b
  refine ⟨?_, ?_, ?_⟩
  · intro hle
    have hc : ¬ threshold < max a b - min a b := by rw [habs]; exact not_lt.mpr hle
    simp [applyZoomSelection, ha, hb, hc]
  · intro hlt
    have hc : threshold < max a b - min a b := by rw [habs]; exact hlt
    simp [applyZoomSelection, ha, hb, hc]
  · intro s2
    cases h1 : s2.zoomSelectionStart <;> cases h2 : s2.zoomSelectionEnd <;>
      simp [applyZoomSelection, h1, h2]

/-- Witness for `applyZoomSelection_spec` at the concrete state `sampleState`
(selection drawn from 40 back to 10) with the default threshold 1/2. -/
theorem applyZoomSelection_spec_witness :
    sampleState.zoomSelectionStart = some 40
    ∧ sampleState.zoomSelectionEnd = some 10
    ∧ ((|(10:ℚ) - 40| ≤ 1/2 →
        (applyZoomSelection (1/2) sampleState).viewStart = sampleState.viewStart
        ∧ (applyZoomSelection (1/2) sampleState).viewEnd = sampleState.viewEnd)
      ∧ ((1:ℚ)/2 < |(10:ℚ) - 40| →
        (applyZoomSelection (1/2) sampleState).viewStart
          = clamp (min 40 10) sampleState.dataStart sampleState.dataEnd
        ∧ (applyZoomSelection (1/2) sampleState).viewEnd
          = clamp (max 40 10) sampleState.dataStart sampleState.dataEnd)
      ∧ ∀ s2 : TimelineState,
        (applyZoomSelection (1/2) s2).zoomSelectionStart = none
        ∧ (applyZoomSelection (1/2) s2).zoomSelectionEnd = none
        ∧ (applyZoomSelection (1/2) s2).isDragging = none) :=
  ⟨rfl, rfl, applyZoomSelection_spec (1/2) sampleState 40 10 rfl rfl⟩

/-- Claim C5: when the zoomed window needs no clamping against the data range,
a single `zoomAtPoint` call yields a window of width
`max(minDuration, (viewEnd - viewStart) * factor)` in which `centerTime` keeps
exactly its pre-zoom fractional position. -/
theorem zoomAtPoint_keeps_center_fraction
    (vs ve factor center ds de minDur : ℚ)
    (hv : vs < ve) (hm : 0 < minDur)
    (hlo : ds ≤ center - (center - vs) / (ve - vs) * max minDur ((ve - vs) * factor))
    (hhi : center - (center - vs) / (ve - vs) * max minDur ((ve - vs) * factor)
        + max minDur ((ve - vs) * factor) ≤ de) :
    (zoomAtPoint vs ve factor center ds de minDur).viewEnd
      - (zoomAtPoint vs ve factor center ds de minDur).viewStart
      = max minDur ((ve - vs) * factor)
    ∧ (center - (zoomAtPoint vs ve factor center ds de minDur).viewStart)
        / ((zoomAtPoint vs ve factor center ds de minDur).viewEnd
          - (zoomAtPoint vs ve factor center ds de minDur).viewStart)
      = (center - vs) / (ve - vs) := by
  have hnd0 : 0 < max minDur ((ve - vs) * factor) := lt_of_lt_of_le hm (le_max_left _ _)
  have hres : zoomAtPoint vs ve factor center ds de minDur
      = ⟨center - (center - vs) / (ve - vs) * max minDur ((ve - vs) * factor),
         center - (center - vs) / (ve - vs) * max minDur ((ve - vs) * factor)
           + max minDur ((ve - vs) * factor)⟩ := by
    simp only [zoomAtPoint]
    split_ifs with hb1 hb2 hb3
    · rw [ViewRange.mk.injEq]
      constructor <;> linarith
    · exact absurd hb2 (not_lt.mpr hlo)
    · exact absurd hb3 (not_lt.mpr hhi)
    · rfl
  rw [hres]
  dsimp only
  constructor
  · ring
  · have hden : center - (center - vs) / (ve - vs) * max minDur ((ve - vs) * factor)
        + max minDur ((ve - vs) * factor)
        - (center - (center - vs) / (ve - vs) * max minDur ((ve - vs) * factor))
        = max minDur ((ve - vs) * factor) := by ring
    have hnum : center
        - (center - (center - vs) / (ve - vs) * max minDur ((ve - vs) * factor))
        = (center - vs) / (ve - vs) * max minDur ((ve - vs) * factor) := by ring
    rw [hden, hnum, mul_div_cancel_right₀ _ (ne_of_gt hnd0)]

/-- Witness for `zoomAtPoint_keeps_center_fraction`: the §8 scenario, zooming
in by factor 1/2 about `centerTime = 60` on view `[0, 120]` of data `[0, 120]`. -/
theorem zoomAtPoint_keeps_center_fraction_witness :
    (0:ℚ) < 120 ∧ (0:ℚ) < 1
    ∧ (0:ℚ) ≤ 60 - (60 - 0) / (120 - 0) * max 1 ((120 - 0) * (1/2))
    ∧ 60 - (60 - 0) / (120 - 0) * max 1 ((120 - 0) * (1/2))
        + max 1 ((120 - 0) * (1/2)) ≤ (120:ℚ)
    ∧ ((zoomAtPoint 0 120 (1/2) 60 0 120 1).viewEnd
        - (zoomAtPoint 0 120 (1/2) 60 0 120 1).viewStart
        = max 1 ((120 - 0) * (1/2))
      ∧ (60 - (zoomAtPoint 0 120 (1/2) 60 0 120 1).viewStart)
          / ((zoomAtPoint 0 120 (1/2) 60 0 120 1).viewEnd
            - (zoomAtPoint 0 120 (1/2) 60 0 120 1).viewStart)
        = (60 - 0) / (120 - 0)) :=
  ⟨by norm_num, by norm_num, by norm_num, by norm_num,
    zoomAtPoint_keeps_center_fraction 0 120 (1/2) 60 0 120 1
      (by norm_num) (by norm_num) (by norm_num) (by norm_num)⟩

theorem pan_unclamped (s : TimelineState) (d : ℚ)
    (h1 : s.dataStart ≤ s.viewStart + d) (h2 : s.viewEnd + d ≤ s.dataEnd) :
    pan s d = { s with viewStart := s.viewStart + d, viewEnd := s.viewEnd + d } := by
  simp only [pan, panView]
  rw [if_neg (not_lt.mpr h1), if_neg (not_lt.mpr h2)]

/-- Claim C6: `pan(d)` followed by `pan(-d)` restores the original view window
whenever neither step is clamped at a data-range boundary, and the window width
`viewEnd - viewStart` is invariant under every single pan. -/
theorem pan_roundtrip_and_width (s : TimelineState) (d : ℚ)
    (h1 : s.dataStart ≤ s.viewStart + d) (h2 : s.viewEnd + d ≤ s.dataEnd)
    (h3 : s.dataStart ≤ s.viewStart) (h4 : s.viewEnd ≤ s.dataEnd) :
    (pan (pan s d) (-d)).viewStart = s.viewStart
    ∧ (pan (pan s d) (-d)).viewEnd = s.viewEnd
    ∧ ∀ (s2 : TimelineState) (d2 : ℚ),
        (pan s2 d2).viewEnd - (pan s2 d2).viewStart = s2.viewEnd - s2.viewStart := by
  rw [pan_unclamped s d h1 h2]
  rw [pan_unclamped _ (-d) (by dsimp only; linarith) (by dsimp only; linarith)]
  refine ⟨?_, ?_, ?_⟩
  · dsimp only; ring
  · dsimp only; ring
  · intro s2 d2
    simp only [pan, panView]
    split_ifs <;> dsimp only <;> ring

/-- Witness for `pan_roundtrip_and_width`: panning by 10 and back on the view
`[20, 40]` of data `[0, 100]` (the state `sampleState`). -/
theorem pan_roundtrip_and_width_witness :
    sampleState.dataStart ≤ sampleState.viewStart + 10
    ∧ sampleState.viewEnd + 10 ≤ sampleState.dataEnd
    ∧ sampleState.dataStart ≤ sampleState.viewStart
    ∧ sampleState.viewEnd ≤ sampleState.dataEnd
    ∧ ((pan (pan sampleState 10) (-10)).viewStart = sampleState.viewStart
      ∧ (pan (pan sampleState 10) (-10)).viewEnd = sampleState.viewEnd
      ∧ ∀ (s2 : TimelineState) (d2 : ℚ),
          (pan s2 d2).viewEnd - (pan s2 d2).viewStart = s2.viewEnd - s2.viewStart) :=
  ⟨by norm_num [sampleState], by norm_num [sampleState], by norm_num [sampleState],
    by norm_num [sampleState],
    pan_roundtrip_and_width sampleState 10 (by norm_num [sampleState])
      (by norm_num [sampleState]) (by norm_num [sampleState]) (by norm_num [sampleState])⟩

/-- Claim C7: on pointer-up while dragging a zoom region, a horizontal travel
strictly below the drag threshold (5 px) is treated as a click: the selection
is discarded, the drag ends, the view window is untouched and the playhead is
seeked (clamped into the data range) to the time at the release position;
a travel at or above the threshold applies the zoom selection instead. -/
theorem onPointerUp_spec (minZoomSelectionThreshold : ℚ) (g : GestureCtx) (x : ℚ)
    (hd : g.st.isDragging = some DragTarget.zoomRegion) :
    (|x - g.zoomStartX| < dragThreshold →
      (onPointerUp minZoomSelectionThreshold g x).viewStart = g.st.viewStart
      ∧ (onPointerUp minZoomSelectionThreshold g x).viewEnd = g.st.viewEnd
      ∧ (onPointerUp minZoomSelectionThreshold g x).zoomSelectionStart = none
      ∧ (onPointerUp minZoomSelectionThreshold g x).zoomSelectionEnd = none
      ∧ (onPointerUp minZoomSelectionThreshold g x).isDragging = none
      ∧ (onPointerUp minZoomSelectionThreshold g x).currentTime
          = clamp (rendererPixelToTime g.rendererState g.width x)
              g.st.dataStart g.st.dataEnd)
    ∧ (dragThreshold ≤ |x - g.zoomStartX| →
      onPointerUp minZoomSelectionThreshold g x
        = applyZoomSelection minZoomSelectionThreshold g.st) := by
  constructor
  · intro hlt
    simp [onPointerUp, hd, hlt, setDragging, setZoomSelection, setCurrentTime]
  · intro hge
    simp [onPointerUp, hd, not_lt.mpr hge]

/-- Witness for `onPointerUp_spec`: release at pixel 12 after a zoom drag that
began at pixel 10 (travel 2 < 5). -/
theorem onPointerUp_spec_witness :
    sampleGesture.st.isDragging = some DragTarget.zoomRegion
    ∧ ((|12 - sampleGesture.zoomStartX| < dragThreshold →
        (onPointerUp (1/2) sampleGesture 12).viewStart = sampleGesture.st.viewStart
        ∧ (onPointerUp (1/2) sampleGesture 12).viewEnd = sampleGesture.st.viewEnd
        ∧ (onPointerUp (1/2) sampleGesture 12).zoomSelectionStart = none
        ∧ (onPointerUp (1/2) sampleGesture 12).zoomSelectionEnd = none
        ∧ (onPointerUp (1/2) sampleGesture 12).isDragging = none
        ∧ (onPointerUp (1/2) sampleGesture 12).currentTime
            = clamp (rendererPixelToTime sampleGesture.rendererState sampleGesture.width 12)
                sampleGesture.st.dataStart sampleGesture.st.dataEnd)
      ∧ (dragThreshold ≤ |12 - sampleGesture.zoomStartX| →
        onPointerUp (1/2) sampleGesture 12 = applyZoomSelection (1/2) sampleGesture.st)) :=
  ⟨rfl, onPointerUp_spec (1/2) sampleGesture 12 rfl⟩

theorem findIdx_playhead (A B : List RenderLayer) (ph : RenderLayer)
    (hA : ∀ x ∈ A, x.name ≠ "playhead") (hph : ph.name = "playhead") :
    (A ++ ph :: B).findIdx (fun x => x.name == "playhead") = A.length := by
  induction A with
  | nil =>
    simp [List.findIdx_cons, hph]
  | cons a A ih =>
    have ha : (a.name == "playhead") = false := by
      simpa using hA a (List.mem_cons_self a A)
    simp [List.findIdx_cons, ha,
      ih (fun x hx => hA x (List.mem_cons_of_mem a hx))]

theorem insertIdx_at_split (A B : List RenderLayer) (ph l : RenderLayer) :
    (A ++ ph :: B).insertIdx A.length l = A ++ l :: ph :: B := by
  induction A with
  | nil => rfl
  | cons a A ih => simp [List.insertIdx_succ_cons, ih]

/-- Claim C8 (amended): in the additive renderer of
`src/lib/rendering/renderer.ts`, `addLayer` (which takes no index argument)
inserts the new layer immediately before the first layer named `playhead`,
leaving the relative order of all pre-existing layers unchanged; in the
config-variant renderer, `addLayer` with no explicit index instead appends the
new layer at the end of the list, after the playhead. -/
theorem addLayer_inserts_before_playhead (A B : List RenderLayer) (l ph : RenderLayer)
    (hA : ∀ x ∈ A, x.name ≠ "playhead") (hph : ph.name = "playhead") :
    addLayer (A ++ ph :: B) l = A ++ l :: ph :: B
    ∧ ∀ (layers : List RenderLayer) (l2 : RenderLayer),
        addLayerCfg layers l2 none = layers ++ [l2] := by
  constructor
  · have hidx := findIdx_playhead A B ph hA hph
    have hlen : A.length < (A ++ ph :: B).length := by
      simp [List.length_append]
    rw [addLayer, hidx, if_pos hlen, insertIdx_at_split]
  · intro layers l2
    rfl

/-- Witness for `addLayer_inserts_before_playhead` on the default layer stack
of `renderer.ts` (background, custom, playhead, zoom-selection, hover). -/
theorem addLayer_inserts_before_playhead_witness :
    (∀ x ∈ [(⟨"background", true⟩ : RenderLayer), ⟨"custom", true⟩],
        x.name ≠ "playhead")
    ∧ (⟨"playhead", true⟩ : RenderLayer).name = "playhead"
    ∧ (addLayer
        ([(⟨"background", true⟩ : RenderLayer), ⟨"custom", true⟩]
          ++ (⟨"playhead", true⟩ : RenderLayer)
            :: [⟨"zoom-selection", true⟩, ⟨"hover", true⟩])
        ⟨"overlay", true⟩
        = [(⟨"background", true⟩ : RenderLayer), ⟨"custom", true⟩]
          ++ (⟨"overlay", true⟩ : RenderLayer)
            :: (⟨"playhead", true⟩ : RenderLayer)
            :: [⟨"zoom-selection", true⟩, ⟨"hover", true⟩]
      ∧ ∀ (layers : List RenderLayer) (l2 : RenderLayer),
          addLayerCfg layers l2 none = layers ++ [l2]) :=
  ⟨by decide, rfl,
    addLayer_inserts_before_playhead
      [⟨"background", true⟩, ⟨"custom", true⟩]
      [⟨"zoom-selection", true⟩, ⟨"hover", true⟩]
      ⟨"overlay", true⟩ ⟨"playhead", true⟩ (by decide) rfl⟩

/-- Counterexample to claim C8 as stated: the config-variant renderer's
`addLayer` with no explicit index appends the new layer at the very end of the
default stack — after the `playhead` layer — rather than inserting it
immediately before the playhead. -/
theorem addLayerCfg_appends_after_playhead :
    addLayerCfg defaultCfgLayers ⟨"custom", true⟩ none
      = [⟨"background", true⟩, ⟨"playhead", true⟩, ⟨"zoom-selection", true⟩,
         ⟨"hover", true⟩, ⟨"custom", true⟩]
    ∧ addLayerCfg defaultCfgLayers ⟨"custom", true⟩ none
      ≠ [⟨"background", true⟩, ⟨"custom", true⟩, ⟨"playhead", true⟩,
         ⟨"zoom-selection", true⟩, ⟨"hover", true⟩] := by
  exact ⟨rfl, by decide⟩

theorem withNotify_subscribers (f : TimelineState → TimelineState) (c : StoreCtx) :
    (withNotify f c).subscribers = c.subscribers := by
  simp only [withNotify, notifySubscribers]
  split_ifs <;> rfl

theorem withNotify_st (f : TimelineState → TimelineState) (c : StoreCtx) :
    (withNotify f c).st = f c.st := by
  simp only [withNotify, notifySubscribers]
  split_ifs <;> rfl

theorem withNotify_scheduled (f : TimelineState → TimelineState) (c : StoreCtx) :
    (withNotify f c).notifyScheduled = true := by
  simp only [withNotify, notifySubscribers]
  split_ifs with h
  · exact h
  · rfl

theorem runBurst_cons (minZoomDuration minZoomSelectionThreshold : ℚ)
    (op : Op) (rest : List Op) (c : StoreCtx) :
    runBurst minZoomDuration minZoomSelectionThreshold (op :: rest) c
      = runBurst minZoomDuration minZoomSelectionThreshold rest
          (withNotify (applyOp minZoomDuration minZoomSelectionThreshold op) c) := rfl

theorem runBurst_subscribers (minZoomDuration minZoomSelectionThreshold : ℚ)
    (ops : List Op) (c : StoreCtx) :
    (runBurst minZoomDuration minZoomSelectionThreshold ops c).subscribers
      = c.subscribers := by
  induction ops generalizing c with
  | nil => rfl
  | cons op rest ih =>
    rw [runBurst_cons, ih, withNotify_subscribers]

theorem runBurst_st (minZoomDuration minZoomSelectionThreshold : ℚ)
    (ops : List Op) (c : StoreCtx) :
    (runBurst minZoomDuration minZoomSelectionThreshold ops c).st
      = ops.foldl (fun s op => applyOp minZoomDuration minZoomSelectionThreshold op s) c.st := by
  induction ops generalizing c with
  | nil => rfl
  | cons op rest ih =>
    rw [runBurst_cons, ih, withNotify_st, List.foldl_cons]

theorem runBurst_scheduled_true (minZoomDuration minZoomSelectionThreshold : ℚ)
    (ops : List Op) (c : StoreCtx) (h : c.notifyScheduled = true) :
    (runBurst minZoomDuration minZoomSelectionThreshold ops c).notifyScheduled = true := by
  induction ops generalizing c with
  | nil => exact h
  | cons op rest ih =>
    rw [runBurst_cons]
    exact ih _ (withNotify_scheduled _ _)

theorem runBurst_scheduled (minZoomDuration minZoomSelectionThreshold : ℚ)
    (ops : List Op) (c : StoreCtx) (hq : c.notifyScheduled = false) :
    (runBurst minZoomDuration minZoomSelectionThreshold ops c).notifyScheduled
      = !ops.isEmpty := by
  cases ops with
  | nil => exact hq
  | cons op rest =>
    rw [runBurst_cons]
    simp [runBurst_scheduled_true minZoomDuration minZoomSelectionThreshold rest _
      (withNotify_scheduled _ _)]

/-- Claim C9: a synchronous burst of store mutations starting from a quiescent
context schedules exactly one notification microtask; when that microtask
flushes, each subscriber is called exactly once (at most once for the burst),
and every delivered snapshot is the state after the last mutation of the burst
— no intermediate state is ever delivered. -/
theorem burst_coalesces_notifications (minZoomDuration minZoomSelectionThreshold : ℚ)
    (ops : List Op) (c : StoreCtx)
    (hq : c.notifyScheduled = false) (hnd : c.subscribers.Nodup) :
    ((flushMicrotask (runBurst minZoomDuration minZoomSelectionThreshold ops c)).2).map
        Prod.fst
      = (if ops.isEmpty then ([] : List ℕ) else c.subscribers)
    ∧ (((flushMicrotask (runBurst minZoomDuration minZoomSelectionThreshold ops c)).2).map
        Prod.fst).Nodup
    ∧ ((flushMicrotask (runBurst minZoomDuration minZoomSelectionThreshold ops c)).2).map
        Prod.snd
      = List.replicate (if ops.isEmpty then 0 else c.subscribers.length)
          (ops.foldl (fun s op => applyOp minZoomDuration minZoomSelectionThreshold op s)
            c.st) := by
  have hs := runBurst_scheduled minZoomDuration minZoomSelectionThreshold ops c hq
  cases hops : ops.isEmpty with
  | true =>
    rw [hops] at hs
    have : ops = [] := List.isEmpty_iff.mp hops
    subst this
    simp [flushMicrotask, hs]
  | false =>
    rw [hops] at hs
    have hs2 : (runBurst minZoomDuration minZoomSelectionThreshold ops c).notifyScheduled
        = true := by rw [hs]; rfl
    refine ⟨?_, ?_, ?_⟩
    · simp [flushMicrotask, hs2, runBurst_subscribers, hops, Function.comp_def]
    · simp [flushMicrotask, hs2, runBurst_subscribers, hnd, Function.comp_def]
    · simp [flushMicrotask, hs2, runBurst_subscribers, runBurst_st, hops,
        Function.comp_def, List.map_const']

/-- Witness for `burst_coalesces_notifications`: two subscribers, a burst of
two mutations; the single flush calls each subscriber once with the final
state. -/
theorem burst_coalesces_notifications_witness :
    (StoreCtx.mk initialState [7, 8] false).notifyScheduled = false
    ∧ (StoreCtx.mk initialState [7, 8] false).subscribers.Nodup
    ∧ (((flushMicrotask (runBurst 1 (1/2)
          [Op.initTimeline 10 0, Op.setCurrentTime 3]
          (StoreCtx.mk initialState [7, 8] false))).2).map Prod.fst
        = (if ([Op.initTimeline 10 0, Op.setCurrentTime 3] : List Op).isEmpty
            then ([] : List ℕ) else (StoreCtx.mk initialState [7, 8] false).subscribers)
      ∧ (((flushMicrotask (runBurst 1 (1/2)
          [Op.initTimeline 10 0, Op.setCurrentTime 3]
          (StoreCtx.mk initialState [7, 8] false))).2).map Prod.fst).Nodup
      ∧ ((flushMicrotask (runBurst 1 (1/2)
          [Op.initTimeline 10 0, Op.setCurrentTime 3]
          (StoreCtx.mk initialState [7, 8] false))).2).map Prod.snd
        = List.replicate
            (if ([Op.initTimeline 10 0, Op.setCurrentTime 3] : List Op).isEmpty
              then 0 else (StoreCtx.mk initialState [7, 8] false).subscribers.length)
            (([Op.initTimeline 10 0, Op.setCurrentTime 3] : List Op).foldl
              (fun s op => applyOp 1 (1/2) op s)
              (StoreCtx.mk initialState [7, 8] false).st)) :=
  ⟨rfl, by decide,
    burst_coalesces_notifications 1 (1/2)
      [Op.initTimeline 10 0, Op.setCurrentTime 3]
      (StoreCtx.mk initialState [7, 8] false) rfl (by decide)⟩

/-- Claim C10: `subscribe(fn)` synchronously calls the new subscriber exactly
once with the current state snapshot, without touching the scheduled-
notification flag or the state; and after using the returned unsubscribe
handle, a flush following any later synchronous burst delivers no notification
to that subscriber. -/
theorem subscribe_immediate_and_unsubscribe (c : StoreCtx) (sid : ℕ)
    (minZoomDuration minZoomSelectionThreshold : ℚ) (ops : List Op) :
    (subscribe c sid).2 = [(sid, c.st)]
    ∧ (subscribe c sid).1.st = c.st
    ∧ (subscribe c sid).1.notifyScheduled = c.notifyScheduled
    ∧ (((flushMicrotask (runBurst minZoomDuration minZoomSelectionThreshold ops
          (unsubscribe (subscribe c sid).1 sid))).2).map Prod.fst).count sid = 0 := by
  refine ⟨rfl, rfl, rfl, ?_⟩
  have hmem : sid ∉ (unsubscribe (subscribe c sid).1 sid).subscribers := by
    simp [unsubscribe]
  rw [flushMicrotask]
  split_ifs with h
  · rw [List.count_eq_zero]
    simp only [List.map_map]
    intro hcontra
    rw [runBurst_subscribers] at hcontra
    exact hmem (by simpa using hcontra)
  · rfl

end Timeline
